import Mathlib

/-!
Verification of the LLM Council three-stage workflow (`backend/graph.py`,
`backend/config.py`).

The workflow's interaction with the external model-inference API is embedded
by passing the dispatcher's per-model results explicitly: a value of type
`List (String × Option RespPayload)` stands for the mapping returned by
`query_models_parallel` (in its iteration order), and an `Option RespPayload`
stands for the single result of `query_model`.  A `none` entry is a failed
invocation; a `some` payload may or may not carry a `content` field, matching
`response.get('content', '')` in the Python source.
-/

namespace LLMCouncil

/-- `StageOneResult`: the dict `{"model": ..., "response": ...}` built by
`stage1_node`. -/
structure StageOneResult where
  model : String
  response : String
deriving DecidableEq, Repr

/-- `StageTwoResult`: the dict `{"model": ..., "ranking": ..., "parsed_ranking": ...}`
built by `stage2_node`. -/
structure StageTwoResult where
  model : String
  ranking : String
  parsed_ranking : List String
deriving DecidableEq, Repr

/-- `StageThreeResult`: the dict `{"model": ..., "response": ...}` built by
`stage3_node`. -/
structure StageThreeResult where
  model : String
  response : String
deriving DecidableEq, Repr

/-- The payload a successful model invocation returns: a dict that may or may
not contain a `content` key.  `response.get('content', '')` is `getContent`. -/
structure RespPayload where
  content : Option String
deriving DecidableEq, Repr

/-- `response.get('content', '')` from the Python source. -/
def RespPayload.getContent (p : RespPayload) : String := p.content.getD ""

/-- The metadata dict produced by `stage2_node`: either
`{"error": "No stage 1 results"}` on the empty-input short-circuit, or
`{"label_to_model": ..., "aggregate_rankings": ...}` on the normal path. -/
inductive Stage2Metadata where
  | err (msg : String)
  | ok (label_to_model : List (String × String)) (aggregate_rankings : List (String × Nat))
deriving DecidableEq, Repr

/-- `CouncilState` from `graph.py`: the state threaded through the workflow.
Dicts with distinct string keys are embedded as association lists in
insertion order. -/
structure CouncilState where
  user_query : String
  stage1_results : List StageOneResult
  stage2_results : List StageTwoResult
  label_to_model : List (String × String)
  stage3_result : StageThreeResult
  metadata : Stage2Metadata
deriving DecidableEq, Repr

/-- `COUNCIL_MODELS` from `backend/config.py`. -/
def COUNCIL_MODELS : List String :=
  ["arcee-ai/trinity-mini:free",
   "amazon/nova-2-lite-v1:free",
   "allenai/olmo-3-32b-think:free",
   "tngtech/tng-r1t-chimera:free"]

/-- `CHAIRMAN_MODEL` from `backend/config.py`. -/
def CHAIRMAN_MODEL : String := "arcee-ai/trinity-mini:free"

/-- Python `sep.join(pieces)`. -/
def joinSep (sep : String) : List String → String
  | [] => ""
  | [x] => x
  | x :: xs => x ++ sep ++ joinSep sep xs

/-- `stage1_node` from `graph.py`, with the dispatcher's result mapping passed
in explicitly: keeps, in iteration order, one `StageOneResult` per model whose
entry is not `None`, reading `content` with default `''`. -/
def stage1_node (responses : List (String × Option RespPayload)) : List StageOneResult :=
  responses.filterMap fun p =>
    p.2.map fun r => { model := p.1, response := r.getContent }

/-! ## Ranking parser (spec-modelled)

`parse_ranking_from_text` lives in `backend/utils.py`, which is not among the
sources; it is modelled from the spec (§4.4). -/

/-- The characters of the literal marker `"FINAL RANKING:"`. -/
def markerChars : List Char := "FINAL RANKING:".data

/-- Modelled from the spec: locate the first (case-sensitive) occurrence of
the literal marker `"FINAL RANKING:"` and return the text after it, or `none`
when the marker is absent. -/
def afterMarker : List Char → Option (List Char)
  | [] => none
  | c :: cs =>
    if (c :: cs).take markerChars.length = markerChars then
      some ((c :: cs).drop markerChars.length)
    else
      afterMarker cs

/-- Split a character list into lines at newline characters. -/
def splitLines : List Char → List (List Char)
  | [] => [[]]
  | c :: cs =>
    if c = '\n' then
      [] :: splitLines cs
    else
      match splitLines cs with
      | [] => [[c]]
      | line :: rest => (c :: line) :: rest

/-- Strip leading and trailing whitespace from a character list. -/
def trimChars (l : List Char) : List Char :=
  ((l.dropWhile Char.isWhitespace).reverse.dropWhile Char.isWhitespace).reverse

/-- Modelled from the spec: after the leading ordinal digits, a ranking line
continues with literally `". Response "` followed by one uppercase letter. -/
def matchDotResponse : List Char → Option String
  | '.' :: ' ' :: 'R' :: 'e' :: 's' :: 'p' :: 'o' :: 'n' :: 's' :: 'e' :: ' ' :: c :: rest =>
    if c.isUpper && rest.isEmpty then some (String.mk [c]) else none
  | _ => none

/-- Modelled from the spec: a line of the form `"<ordinal>. Response <Letter>"`
yields its letter; any other line yields nothing. -/
def parseRankLine (line : List Char) : Option String :=
  let l := trimChars line
  let ds := l.takeWhile Char.isDigit
  if ds.isEmpty then none
  else matchDotResponse (l.dropWhile Char.isDigit)

/-- Modelled from the spec: `parse_ranking_from_text` from `backend/utils.py`
(not among the sources, §4.4).  Locates the first occurrence of the literal
marker `"FINAL RANKING:"`; if absent returns `[]`; otherwise extracts, from the
lines after the marker in document order, the letters of lines of the form
`"<ordinal>. Response <Letter>"`, ignoring lines that do not match. -/
def parse_ranking_from_text (text : String) : List String :=
  match afterMarker text.data with
  | none => []
  | some rest => (splitLines rest).filterMap parseRankLine

/-! ## Rank aggregator (spec-modelled) -/

/-- Modelled from the spec (§4.5): the score a single ranking contributes for
the label with map key `key`: its 1-based position in the parsed ranking, or
the fixed worst-case penalty `n + 1` (with `n` the number of labels) when the
label is absent from that ranking.  Parsed rankings hold bare letters while the
map is keyed by `"Response <Letter>"`, so a letter matches the key
`"Response " ++ letter`. -/
def positionScore (n : Nat) (r : StageTwoResult) (key : String) : Nat :=
  match r.parsed_ranking.findIdx? (fun lbl => "Response " ++ lbl == key) with
  | some i => i + 1
  | none => n + 1

/-- Stable insertion (by ascending score) preserving the relative order of
equal scores. -/
def insertByScore (x : String × Nat) : List (String × Nat) → List (String × Nat)
  | [] => [x]
  | y :: ys => if x.2 ≤ y.2 then x :: y :: ys else y :: insertByScore x ys

/-- Stable insertion sort by ascending score; ties keep the original order. -/
def sortByScore (l : List (String × Nat)) : List (String × Nat) :=
  l.foldr insertByScore []

/-- Modelled from the spec: `calculate_aggregate_rankings` from
`backend/utils.py` (not among the sources, §4.5).  If no model produced a
parseable ranking (every parsed ranking is empty), returns an empty
`AggregateRanking` (not a failure).  Otherwise, for each entry of the
label-to-model map, in original label order, sum the position scores the
rankings assign to that label (penalty `n + 1` for labels a ranking omits —
fixed worst-case policy per §9), then sort models by ascending total score,
ties broken by the original label order. -/
def calculate_aggregate_rankings (stage2_results : List StageTwoResult)
    (label_to_model : List (String × String)) : List (String × Nat) :=
  if stage2_results.all fun r => r.parsed_ranking.isEmpty then []
  else
    let n := label_to_model.length
    let scored := label_to_model.map fun p =>
      (p.2, (stage2_results.map fun r => positionScore n r p.1).sum)
    sortByScore scored

/-! ## Stage 2 -/

/-- The key `f"Response {label}"` under which a label is stored in
`label_to_model`. -/
def labelKey (c : Char) : String := "Response " ++ String.mk [c]

/-- The partial state update returned by `stage2_node`. -/
structure Stage2Update where
  stage2_results : List StageTwoResult
  label_to_model : List (String × String)
  metadata : Stage2Metadata
deriving DecidableEq, Repr

/-- The anonymized-responses block of the ranking prompt:
`"Response {label}:\n{response}"` pieces joined by blank lines. -/
def responsesText (labels : List Char) (stage1_results : List StageOneResult) : String :=
  joinSep "\n\n" ((labels.zip stage1_results).map fun p =>
    labelKey p.1 ++ ":\n" ++ p.2.response)

/-- The ranking prompt built by `stage2_node`. -/
def rankingPrompt (user_query : String) (labels : List Char)
    (stage1_results : List StageOneResult) : String :=
  "You are evaluating different responses to the following question:\n\nQuestion: "
    ++ user_query
    ++ "\n\nHere are the responses from different models (anonymized):\n\n"
    ++ responsesText labels stage1_results
    ++ "\n\nYour task:\n1. First, evaluate each response individually.\n"
    ++ "2. Then, at the very end, provide a final ranking.\n\n"
    ++ "IMPORTANT: Your final ranking MUST be formatted EXACTLY as follows:\n"
    ++ "- Start with \"FINAL RANKING:\"\n"
    ++ "- List responses from best to worst (e.g., \"1. Response A\")\n\n"
    ++ "FINAL RANKING:\n1. Response [Label]\n2. Response [Label]\n...\n"

/-- `stage2_node` from `graph.py`, with the dispatcher's result mapping for the
ranking round passed in explicitly.  Short-circuits on empty Stage-1 input;
otherwise labels the Stage-1 results `chr(65 + i)`, builds the
label-to-model map, records one `StageTwoResult` (raw text plus parsed
ranking) per model whose entry is not `None`, and stores the label map and the
aggregate rankings in the metadata. -/
def stage2_node (state : CouncilState)
    (responses : List (String × Option RespPayload)) : Stage2Update :=
  let stage1_results := state.stage1_results
  if stage1_results = [] then
    { stage2_results := []
      label_to_model := []
      metadata := .err "No stage 1 results" }
  else
    let labels := (List.range stage1_results.length).map fun i => Char.ofNat (65 + i)
    let label_to_model := (labels.zip stage1_results).map fun p => (labelKey p.1, p.2.model)
    let stage2_results := responses.filterMap fun p =>
      p.2.map fun r =>
        let full_text := r.getContent
        { model := p.1
          ranking := full_text
          parsed_ranking := parse_ranking_from_text full_text : StageTwoResult }
    let aggregate_rankings := calculate_aggregate_rankings stage2_results label_to_model
    { stage2_results := stage2_results
      label_to_model := label_to_model
      metadata := .ok label_to_model aggregate_rankings }

/-! ## Stage 3 -/

/-- The Stage-1 block of the chairman prompt:
`"Model: {model}\nResponse: {response}"` pieces joined by blank lines. -/
def stage1Text (stage1_results : List StageOneResult) : String :=
  joinSep "\n\n" (stage1_results.map fun r =>
    "Model: " ++ r.model ++ "\nResponse: " ++ r.response)

/-- The Stage-2 block of the chairman prompt:
`"Model: {model}\nRanking: {ranking}"` pieces joined by blank lines. -/
def stage2Text (stage2_results : List StageTwoResult) : String :=
  joinSep "\n\n" (stage2_results.map fun r =>
    "Model: " ++ r.model ++ "\nRanking: " ++ r.ranking)

/-- The chairman prompt built by `stage3_node`. -/
def chairmanPrompt (user_query : String) (stage1_results : List StageOneResult)
    (stage2_results : List StageTwoResult) : String :=
  "You are the Chairman of an LLM Council.\n\nOriginal Question: "
    ++ user_query
    ++ "\n\nSTAGE 1 - Individual Responses:\n"
    ++ stage1Text stage1_results
    ++ "\n\nSTAGE 2 - Peer Rankings:\n"
    ++ stage2Text stage2_results
    ++ "\n\nSynthesize all information into a single, comprehensive answer:"

/-- `stage3_node` from `graph.py`, with the chairman invocation's result passed
in explicitly.  Empty Stage-1 input yields the `"error"` sentinel; a failed
chairman invocation yields the chairman-tagged failure sentinel; a success
yields the chairman's content (default `''`). -/
def stage3_node (state : CouncilState) (response : Option RespPayload) : StageThreeResult :=
  if state.stage1_results = [] then
    { model := "error", response := "No responses to synthesize." }
  else
    match response with
    | none => { model := CHAIRMAN_MODEL, response := "Error: Synthesis failed." }
    | some r => { model := CHAIRMAN_MODEL, response := r.getContent }

/-- `needle` occurs as a contiguous substring of `haystack`. -/
def strEmbeds (needle haystack : String) : Prop :=
  ∃ pre suf : List Char, haystack.data = pre ++ needle.data ++ suf

/-- The uppercase alphabet, of which label `i` is the `i`-th letter. -/
def uppercaseAlphabet : List Char := "ABCDEFGHIJKLMNOPQRSTUVWXYZ".data

/-! ## Theorems -/

/-- When every entry of the dispatcher mapping succeeded, Stage 1 keeps them
all. -/
theorem stage1_length_all_some :
    ∀ responses : List (String × Option RespPayload),
      (∀ p ∈ responses, p.2.isSome) →
      (stage1_node responses).length = responses.length := by
  intro responses
  induction responses with
  | nil => intro _; rfl
  | cons p ps ih =>
    intro hall
    obtain ⟨r, hr⟩ := Option.isSome_iff_exists.mp (hall p (List.mem_cons_self p ps))
    have := ih fun q hq => hall q (List.mem_cons_of_mem p hq)
    simp [stage1_node, List.filterMap_cons, hr] at this ⊢
    exact this

/-- C6: Stage 1 emits exactly one `StageOneResult` per model whose invocation
succeeded (in the mapping's iteration order), silently drops the failed
entries, and when every invocation succeeds its output size equals the
council size. -/
theorem stage1_emits_one_per_success (responses : List (String × Option RespPayload)) :
    (stage1_node responses).map StageOneResult.model
      = (responses.filter fun p => p.2.isSome).map Prod.fst
    ∧ ((∀ p ∈ responses, p.2.isSome) →
        responses.length = COUNCIL_MODELS.length →
        (stage1_node responses).length = COUNCIL_MODELS.length) := by
  constructor
  · induction responses with
    | nil => rfl
    | cons p ps ih =>
      cases hr : p.2 with
      | none => simpa [stage1_node, List.filterMap_cons, List.filter_cons, hr] using ih
      | some r => simpa [stage1_node, List.filterMap_cons, List.filter_cons, hr] using ih
  · intro hall hlen
    rw [stage1_length_all_some responses hall, hlen]

theorem stage1_emits_one_per_success_witness :
    (stage1_node [("arcee-ai/trinity-mini:free", some ⟨some "a"⟩),
                  ("amazon/nova-2-lite-v1:free", some ⟨none⟩),
                  ("allenai/olmo-3-32b-think:free", some ⟨some "c"⟩),
                  ("tngtech/tng-r1t-chimera:free", some ⟨some "d"⟩)]).length
      = COUNCIL_MODELS.length :=
  (stage1_emits_one_per_success _).2 (by decide) (by decide)

/-- C2: on an empty Stage-1 result list, `stage2_node` short-circuits to an
empty `StageTwoResult` list, an empty label-to-model map, and the
`"No stage 1 results"` error metadata, and its output does not depend on the
dispatcher at all (no model is invoked). -/
theorem stage2_empty_input_shortcircuit (state : CouncilState)
    (responses responses' : List (String × Option RespPayload))
    (h : state.stage1_results = []) :
    stage2_node state responses =
      { stage2_results := []
        label_to_model := []
        metadata := .err "No stage 1 results" }
    ∧ stage2_node state responses = stage2_node state responses' := by
  constructor <;> simp [stage2_node, h]

theorem stage2_empty_input_shortcircuit_witness :
    stage2_node
        { user_query := "Q", stage1_results := [], stage2_results := [],
          label_to_model := [], stage3_result := ⟨"", ""⟩, metadata := .err "" }
        [("m", some ⟨some "x"⟩)] =
      { stage2_results := []
        label_to_model := []
        metadata := .err "No stage 1 results" } :=
  (stage2_empty_input_shortcircuit _ _ [] rfl).1

/-- C3: on an empty Stage-1 result list, `stage3_node` returns the sentinel
failure result with model tag `"error"` and explanatory text, and its output
does not depend on the chairman invocation at all (the chairman is not
invoked); being a total function, it raises nothing. -/
theorem stage3_empty_input_sentinel (state : CouncilState)
    (response response' : Option RespPayload)
    (h : state.stage1_results = []) :
    stage3_node state response =
      { model := "error", response := "No responses to synthesize." }
    ∧ stage3_node state response = stage3_node state response' := by
  constructor <;> simp [stage3_node, h]

theorem stage3_empty_input_sentinel_witness :
    stage3_node
        { user_query := "Q", stage1_results := [], stage2_results := [],
          label_to_model := [], stage3_result := ⟨"", ""⟩, metadata := .err "" }
        (some ⟨some "x"⟩) =
      { model := "error", response := "No responses to synthesize." } :=
  (stage3_empty_input_sentinel _ _ none rfl).1

/-- C7: on a non-empty Stage-1 result list, when the chairman invocation fails
(`None`), `stage3_node` returns the sentinel failure result tagged with the
chairman's identifier and an explanatory message instead of raising. -/
theorem stage3_chairman_failure_sentinel (state : CouncilState)
    (h : state.stage1_results ≠ []) :
    stage3_node state none =
      { model := CHAIRMAN_MODEL, response := "Error: Synthesis failed." } := by
  simp [stage3_node, h]

theorem stage3_chairman_failure_sentinel_witness :
    stage3_node
        { user_query := "Q", stage1_results := [⟨"m1", "r1"⟩], stage2_results := [],
          label_to_model := [], stage3_result := ⟨"", ""⟩, metadata := .err "" }
        none =
      { model := CHAIRMAN_MODEL, response := "Error: Synthesis failed." } :=
  stage3_chairman_failure_sentinel _ (by decide)

/-- C9: a successful invocation whose payload lacks a `content` field is
treated as a success with empty text in every stage: Stage 1 records the model
with response `""`, Stage 2 records it with raw ranking `""` and empty parsed
ranking, and Stage 3 returns the chairman with response `""`. -/
theorem missing_content_is_empty_success :
    (∀ m : String, stage1_node [(m, some ⟨none⟩)] = [⟨m, ""⟩])
    ∧ (∀ (state : CouncilState) (m : String), state.stage1_results ≠ [] →
        (stage2_node state [(m, some ⟨none⟩)]).stage2_results = [⟨m, "", []⟩])
    ∧ (∀ state : CouncilState, state.stage1_results ≠ [] →
        stage3_node state (some ⟨none⟩) = ⟨CHAIRMAN_MODEL, ""⟩) := by
  refine ⟨fun m => rfl, fun state m h => ?_, fun state h => ?_⟩
  · simp only [stage2_node, if_neg h]
    rfl
  · simp [stage3_node, h, RespPayload.getContent]

theorem missing_content_is_empty_success_witness :
    (stage2_node
        { user_query := "Q", stage1_results := [⟨"m1", "r1"⟩], stage2_results := [],
          label_to_model := [], stage3_result := ⟨"", ""⟩, metadata := .err "" }
        [("m2", some ⟨none⟩)]).stage2_results = [⟨"m2", "", []⟩] :=
  missing_content_is_empty_success.2.1 _ "m2" (by decide)

/-- C10: on a non-empty Stage-1 result list, `stage2_node` never produces the
error marker: its metadata is the `ok` form carrying the label-to-model map
and the aggregate ranking computed from the collected results, even when every
ranking invocation fails — in which case the `StageTwoResult` list is empty. -/
theorem stage2_nonempty_no_error_marker (state : CouncilState)
    (responses : List (String × Option RespPayload))
    (h : state.stage1_results ≠ []) :
    (stage2_node state responses).metadata
      = Stage2Metadata.ok (stage2_node state responses).label_to_model
          (calculate_aggregate_rankings (stage2_node state responses).stage2_results
            (stage2_node state responses).label_to_model)
    ∧ ((∀ p ∈ responses, p.2 = none) →
        (stage2_node state responses).stage2_results = []) := by
  constructor
  · simp only [stage2_node, if_neg h]
  · intro hall
    simp only [stage2_node, if_neg h]
    exact List.filterMap_eq_nil_iff.mpr fun p hp => by simp [hall p hp]

/-- If the marker search succeeds, the input really does contain the marker:
the remainder returned is the text after its first occurrence. -/
theorem afterMarker_some_decomp :
    ∀ l rest : List Char, afterMarker l = some rest →
      ∃ pre : List Char, l = pre ++ markerChars ++ rest := by
  intro l
  induction l with
  | nil => intro rest h; simp [afterMarker] at h
  | cons c cs ih =>
    intro rest h
    by_cases hp : (c :: cs).take markerChars.length = markerChars
    · simp only [afterMarker, if_pos hp] at h
      injection h with h
      refine ⟨[], ?_⟩
      conv_lhs => rw [← List.take_append_drop markerChars.length (c :: cs)]
      rw [hp, h]
      simp
    · simp only [afterMarker, if_neg hp] at h
      obtain ⟨pre, hpre⟩ := ih rest h
      exact ⟨c :: pre, by rw [hpre]; rfl⟩

/-- C4: the ranking parser returns the letters of the
`"<ordinal>. Response <Letter>"` lines after the first occurrence of the
case-sensitive marker `"FINAL RANKING:"`; any text without an occurrence of
the marker yields `[]` (no exception — the parser is total), and on the two
specification examples it yields `["B", "A"]` and `[]`. -/
theorem parse_ranking_marker_and_examples :
    (∀ text : String,
        (∀ pre suf : List Char, text.data ≠ pre ++ markerChars ++ suf) →
        parse_ranking_from_text text = [])
    ∧ parse_ranking_from_text "... FINAL RANKING:\n1. Response B\n2. Response A\n" = ["B", "A"]
    ∧ parse_ranking_from_text "no marker here" = [] := by
  refine ⟨fun text habs => ?_, by decide, by decide⟩
  cases hm : afterMarker text.data with
  | none => simp [parse_ranking_from_text, hm]
  | some rest =>
    obtain ⟨pre, hpre⟩ := afterMarker_some_decomp text.data rest hm
    exact absurd hpre (habs pre rest)

theorem parse_ranking_marker_and_examples_witness :
    parse_ranking_from_text "x" = [] := by
  apply parse_ranking_marker_and_examples.1
  intro pre suf heq
  have hlen := congrArg List.length heq
  rw [List.length_append, List.length_append] at hlen
  have h1 : "x".data.length = 1 := by decide
  have h2 : markerChars.length = 14 := by decide
  omega

/-- C5: the aggregate ranking is invariant under permuting the list of
`StageTwoResult`s fed to the aggregator — accumulation is order-independent. -/
theorem aggregate_rankings_perm_invariant (rs rs' : List StageTwoResult)
    (ltm : List (String × String)) (h : rs.Perm rs') :
    calculate_aggregate_rankings rs ltm = calculate_aggregate_rankings rs' ltm := by
  simp only [calculate_aggregate_rankings]
  have hall : (rs.all fun r => r.parsed_ranking.isEmpty)
      = (rs'.all fun r => r.parsed_ranking.isEmpty) := by
    rw [Bool.eq_iff_iff]
    simp only [List.all_eq_true]
    constructor
    · intro hx x hmem
      exact hx x (h.mem_iff.mpr hmem)
    · intro hx x hmem
      exact hx x (h.mem_iff.mp hmem)
  have hmap :
      (ltm.map fun p => (p.2, (rs.map fun r => positionScore ltm.length r p.1).sum))
        = ltm.map fun p => (p.2, (rs'.map fun r => positionScore ltm.length r p.1).sum) := by
    apply List.map_congr_left
    intro p _
    have hperm := h.map fun r => positionScore ltm.length r p.1
    rw [hperm.sum_eq]
  rw [hall, hmap]

theorem aggregate_rankings_perm_invariant_witness :
    calculate_aggregate_rankings [⟨"m1", "x", ["A"]⟩, ⟨"m2", "y", ["B"]⟩]
        [("Response A", "m1"), ("Response B", "m2")]
      = calculate_aggregate_rankings [⟨"m2", "y", ["B"]⟩, ⟨"m1", "x", ["A"]⟩]
        [("Response A", "m1"), ("Response B", "m2")] :=
  aggregate_rankings_perm_invariant _ _ _ (List.Perm.swap _ _ [])

/-! ### Substring facts for the chairman prompt -/

theorem strEmbeds_refl (a : String) : strEmbeds a a := ⟨[], [], by simp⟩

theorem strEmbeds_append_left (a s t : String) (h : strEmbeds a s) :
    strEmbeds a (t ++ s) := by
  obtain ⟨pre, suf, hd⟩ := h
  exact ⟨t.data ++ pre, suf, by simp [hd]⟩

theorem strEmbeds_append_right (a s t : String) (h : strEmbeds a s) :
    strEmbeds a (s ++ t) := by
  obtain ⟨pre, suf, hd⟩ := h
  exact ⟨pre, suf ++ t.data, by simp [hd]⟩

/-- Every piece of a joined list occurs verbatim in the joined string. -/
theorem strEmbeds_joinSep (sep x : String) :
    ∀ l : List String, x ∈ l → strEmbeds x (joinSep sep l) := by
  intro l
  induction l with
  | nil => intro h; exact absurd h (List.not_mem_nil x)
  | cons y ys ih =>
    intro hx
    cases ys with
    | nil =>
      have hxy : x = y := by simpa using hx
      subst hxy
      exact strEmbeds_refl x
    | cons z zs =>
      rcases List.mem_cons.mp hx with hxy | hmem
      · subst hxy
        show strEmbeds x (x ++ sep ++ joinSep sep (z :: zs))
        exact strEmbeds_append_right _ _ _ (strEmbeds_append_right _ _ _ (strEmbeds_refl x))
      · show strEmbeds x (y ++ sep ++ joinSep sep (z :: zs))
        exact strEmbeds_append_left _ _ _ (ih hmem)

/-- C8: on a non-empty Stage-1 result list, the chairman prompt embeds the
user query, every Stage-1 model/response pair, and every Stage-2 model paired
with its raw ranking text; and a successful chairman invocation yields exactly
one `StageThreeResult` whose model is the chairman's identifier. -/
theorem stage3_prompt_embeds_and_success (state : CouncilState) (r : RespPayload)
    (h : state.stage1_results ≠ []) :
    stage3_node state (some r) = { model := CHAIRMAN_MODEL, response := r.getContent }
    ∧ strEmbeds state.user_query
        (chairmanPrompt state.user_query state.stage1_results state.stage2_results)
    ∧ (∀ res ∈ state.stage1_results,
        strEmbeds ("Model: " ++ res.model ++ "\nResponse: " ++ res.response)
          (chairmanPrompt state.user_query state.stage1_results state.stage2_results))
    ∧ (∀ res ∈ state.stage2_results,
        strEmbeds ("Model: " ++ res.model ++ "\nRanking: " ++ res.ranking)
          (chairmanPrompt state.user_query state.stage1_results state.stage2_results)) := by
  refine ⟨by simp [stage3_node, h], ?_, fun res hres => ?_, fun res hres => ?_⟩
  · unfold chairmanPrompt
    apply strEmbeds_append_right
    apply strEmbeds_append_right
    apply strEmbeds_append_right
    apply strEmbeds_append_right
    apply strEmbeds_append_right
    apply strEmbeds_append_left
    exact strEmbeds_refl _
  · unfold chairmanPrompt
    apply strEmbeds_append_right
    apply strEmbeds_append_right
    apply strEmbeds_append_right
    apply strEmbeds_append_left
    exact strEmbeds_joinSep _ _ _ (List.mem_map_of_mem _ hres)
  · unfold chairmanPrompt
    apply strEmbeds_append_right
    apply strEmbeds_append_left
    exact strEmbeds_joinSep _ _ _ (List.mem_map_of_mem _ hres)

theorem stage3_prompt_embeds_and_success_witness :
    stage3_node
        { user_query := "Q", stage1_results := [⟨"M1", "a1"⟩, ⟨"M2", "a2"⟩],
          stage2_results := [⟨"M1", "rank1", ["A"]⟩, ⟨"M2", "rank2", ["A"]⟩],
          label_to_model := [], stage3_result := ⟨"", ""⟩, metadata := .err "" }
        (some ⟨some "final"⟩) =
      { model := CHAIRMAN_MODEL, response := "final" } :=
  (stage3_prompt_embeds_and_success _ ⟨some "final"⟩ (by decide)).1

theorem stage2_nonempty_no_error_marker_witness :
    (stage2_node
        { user_query := "Q", stage1_results := [⟨"m1", "r1"⟩], stage2_results := [],
          label_to_model := [], stage3_result := ⟨"", ""⟩, metadata := .err "" }
        [("m1", none), ("m2", none)]).stage2_results = [] :=
  (stage2_nonempty_no_error_marker _ _ (by decide)).2 (by decide)

/-- For `i < 26`, the label `chr(65 + i)` is the `i`-th uppercase letter. -/
theorem labelChar_eq_alphabet :
    ∀ i < 26, Char.ofNat (65 + i) = uppercaseAlphabet.getD i 'A' := by decide

/-- Distinct positions below 26 get distinct `"Response <letter>"` keys. -/
theorem labelKey_inj_below :
    ∀ i < 26, ∀ j < 26,
      labelKey (Char.ofNat (65 + i)) = labelKey (Char.ofNat (65 + j)) → i = j := by decide

/-- C1: with `n` non-empty Stage-1 results and `n ≤ 26`, the label-to-model
map built by `stage2_node` has exactly `n` entries, its `i`-th entry pairs the
key `"Response <i-th uppercase letter>"` with the model of the `i`-th Stage-1
result in collection order, and its keys are pairwise distinct — so every
result gets exactly one label and every label maps back to exactly one model
identifier. -/
theorem stage2_label_assignment_bijection (state : CouncilState)
    (responses : List (String × Option RespPayload))
    (hne : state.stage1_results ≠ []) (h26 : state.stage1_results.length ≤ 26) :
    ((stage2_node state responses).label_to_model).length = state.stage1_results.length
    ∧ (∀ i, i < state.stage1_results.length →
        ((stage2_node state responses).label_to_model)[i]?
          = some ("Response " ++ String.mk [uppercaseAlphabet.getD i 'A'],
                  (state.stage1_results.getD i ⟨"", ""⟩).model))
    ∧ (((stage2_node state responses).label_to_model).map Prod.fst).Nodup := by
  have hltm : (stage2_node state responses).label_to_model
      = (((List.range state.stage1_results.length).map fun i =>
            Char.ofNat (65 + i)).zip state.stage1_results).map
          fun p => (labelKey p.1, p.2.model) := by
    simp only [stage2_node, if_neg hne]
  have hlablen :
      ((List.range state.stage1_results.length).map fun i =>
        Char.ofNat (65 + i)).length = state.stage1_results.length := by
    simp
  have hziplen :
      (((List.range state.stage1_results.length).map fun i =>
        Char.ofNat (65 + i)).zip state.stage1_results).length
        = state.stage1_results.length := by
    simp
  refine ⟨by rw [hltm]; simp, fun i hi => ?_, ?_⟩
  · have hiz : i < (((List.range state.stage1_results.length).map fun i =>
        Char.ofNat (65 + i)).zip state.stage1_results).length := by
      rw [hziplen]; exact hi
    rw [hltm, List.getElem?_map, List.getElem?_eq_getElem hiz]
    have hgetD : state.stage1_results.getD i ⟨"", ""⟩ =
        state.stage1_results.get ⟨i, hi⟩ := by
      simp [List.getD_eq_getElem?_getD, List.getElem?_eq_getElem hi]
    simp only [Option.map_some', List.getElem_zip, List.getElem_map,
      List.getElem_range, hgetD, List.get_eq_getElem, labelKey]
    rw [labelChar_eq_alphabet i (by omega)]
  · have hkeys : (((stage2_node state responses).label_to_model).map Prod.fst)
        = (List.range state.stage1_results.length).map fun i =>
            labelKey (Char.ofNat (65 + i)) := by
      rw [hltm, List.map_map]
      have hfst : ((((List.range state.stage1_results.length).map fun i =>
            Char.ofNat (65 + i)).zip state.stage1_results).map
              (Prod.fst ∘ fun p => (labelKey p.1, p.2.model)))
          = (((List.range state.stage1_results.length).map fun i =>
            Char.ofNat (65 + i)).zip state.stage1_results).map
              (labelKey ∘ Prod.fst) := rfl
      rw [hfst, ← List.map_map, List.map_fst_zip _ _ (le_of_eq hlablen),
        List.map_map]
      rfl
    rw [hkeys]
    refine List.Nodup.map_on ?_ (List.nodup_range _)
    intro x hx y hy hxy
    exact labelKey_inj_below x (by have := List.mem_range.mp hx; omega)
      y (by have := List.mem_range.mp hy; omega) hxy

theorem stage2_label_assignment_bijection_witness :
    ((stage2_node
        { user_query := "Q", stage1_results := [⟨"m1", "r1"⟩, ⟨"m2", "r2"⟩],
          stage2_results := [], label_to_model := [], stage3_result := ⟨"", ""⟩,
          metadata := .err "" }
        []).label_to_model)[0]?
      = some ("Response " ++ String.mk [uppercaseAlphabet.getD 0 'A'], "m1") :=
  (stage2_label_assignment_bijection _ [] (by decide) (by decide)).2.1 0 (by decide)

end LLMCouncil
